import Mathlib

/-!
Verification of the Workshop Dashboard ingestion / classification pipeline.

This file gives a shallow embedding of the core pipeline of the repository
(src/app.py and src/test.py): the date normalizer `parse_date`, the field
reconciler `get_field`, the order classifier `process_orders_dataframe`
(per-record body `process_order`), the paginated fetcher
`fetch_sales_orders` / `request_json`, and the board partitioner of
test.py (`render_board` and its section helpers).

Python values are modelled by the inductive `PyVal`; Python truthiness by
`truthy`; the short-circuiting `or` by `pyOr`; `dict.get` by `pyGet`
(defaulting to `PyVal.none`) and `lookupKey` (key presence).  `datetime`
objects are modelled by `PyDateTime`; `datetime.strptime` is modelled by a
backtracking matcher over the directive sequences that appear in the
source's format list, following CPython's `_strptime` regexes for the
directives `%Y %m %d %H %M %S %f` and its final validation through the
`datetime` constructor.  Machine floats carried by order quantities are
modelled by rationals; `float(...)` coercion of strings is modelled for
plain decimal literals (the forms exercised by the pipeline).
-/

namespace Workshop

/-- Model of a Python `datetime` value (naive, as produced by `strptime`). -/
structure PyDateTime where
  year : Nat
  month : Nat
  day : Nat
  hour : Nat
  minute : Nat
  second : Nat
  usec : Nat
deriving DecidableEq, Repr

/-- Leap-year test, as in the Gregorian calendar used by `datetime.date`. -/
def isLeapYear (y : Nat) : Bool :=
  y % 4 = 0 && (y % 100 ≠ 0 || y % 400 = 0)

/-- Number of days in a month of a given year (`calendar` rules used by
`datetime`). -/
def daysInMonth (y m : Nat) : Nat :=
  if m = 2 then (if isLeapYear y then 29 else 28)
  else if m = 4 || m = 6 || m = 9 || m = 11 then 30
  else 31

/-- Validity of a `PyDateTime`, mirroring the checks of the `datetime`
constructor (`MINYEAR = 1`, `MAXYEAR = 9999`, day bounded by the month
length, second below 60, microsecond below 10^6). -/
def validDT (d : PyDateTime) : Bool :=
  1 ≤ d.year && d.year ≤ 9999 &&
  1 ≤ d.month && d.month ≤ 12 &&
  1 ≤ d.day && d.day ≤ daysInMonth d.year d.month &&
  d.hour ≤ 23 && d.minute ≤ 59 && d.second ≤ 59 && d.usec ≤ 999999

/-- The decimal digit characters, used to print zero-padded numbers. -/
def digitChar : Nat → Char
  | 0 => '0' | 1 => '1' | 2 => '2' | 3 => '3' | 4 => '4'
  | 5 => '5' | 6 => '6' | 7 => '7' | 8 => '8' | 9 => '9'
  | _ => '0'

/-- Numeric value of a decimal digit character. -/
def digitVal (c : Char) : Nat := c.toNat - 48

/-- Value of a digit string, most significant digit first. -/
def natOfDigits (l : List Char) : Nat :=
  l.foldl (fun a c => a * 10 + digitVal c) 0

/-- Two-digit zero-padded decimal rendering (for values below 100). -/
def pad2 (n : Nat) : List Char := [digitChar (n / 10), digitChar (n % 10)]

/-- Four-digit zero-padded decimal rendering (for values below 10000). -/
def pad4 (n : Nat) : List Char :=
  [digitChar (n / 1000), digitChar (n / 100 % 10), digitChar (n / 10 % 10),
   digitChar (n % 10)]

/-- Six-digit zero-padded decimal rendering (for values below 10^6). -/
def pad6 (n : Nat) : List Char :=
  [digitChar (n / 100000), digitChar (n / 10000 % 10), digitChar (n / 1000 % 10),
   digitChar (n / 100 % 10), digitChar (n / 10 % 10), digitChar (n % 10)]

/-- A `strptime` directive or literal character, covering the format
strings used by `parse_date`. -/
inductive Piece where
  | lit (c : Char)
  | Y
  | Mo
  | D
  | H
  | Mi
  | S
  | F
deriving DecidableEq, Repr

/-- Candidate matches for one directive on an input suffix, listed in the
priority order of CPython's `_strptime` regex alternations: `%Y` is exactly
four digits; `%m` is `1[0-2]|0[1-9]|[1-9]`; `%d` is
`3[01]|[12]\d|0[1-9]|[1-9]`; `%H` is `2[0-3]|[0-1]\d|\d`; `%M` is
`[0-5]\d|\d`; `%S` is `6[0-1]|[0-5]\d|\d`; `%f` is one to six digits,
greedy, scaled to microseconds. -/
def pieceCands : Piece → List Char → List (Nat × List Char)
  | .lit ch, t :: ts => if t = ch then [(0, ts)] else []
  | .lit _, [] => []
  | .Y, a :: b :: c :: d :: ts =>
      if a.isDigit && b.isDigit && c.isDigit && d.isDigit then
        [(digitVal a * 1000 + digitVal b * 100 + digitVal c * 10 + digitVal d, ts)]
      else []
  | .Y, _ => []
  | .Mo, a :: b :: ts =>
      (if a.isDigit && b.isDigit &&
          1 ≤ 10 * digitVal a + digitVal b && 10 * digitVal a + digitVal b ≤ 12 then
         [(10 * digitVal a + digitVal b, ts)] else []) ++
      (if a.isDigit && 1 ≤ digitVal a && digitVal a ≤ 9 then
         [(digitVal a, b :: ts)] else [])
  | .Mo, [a] =>
      if a.isDigit && 1 ≤ digitVal a && digitVal a ≤ 9 then [(digitVal a, [])] else []
  | .Mo, [] => []
  | .D, a :: b :: ts =>
      (if a.isDigit && b.isDigit &&
          1 ≤ 10 * digitVal a + digitVal b && 10 * digitVal a + digitVal b ≤ 31 then
         [(10 * digitVal a + digitVal b, ts)] else []) ++
      (if a.isDigit && 1 ≤ digitVal a && digitVal a ≤ 9 then
         [(digitVal a, b :: ts)] else [])
  | .D, [a] =>
      if a.isDigit && 1 ≤ digitVal a && digitVal a ≤ 9 then [(digitVal a, [])] else []
  | .D, [] => []
  | .H, a :: b :: ts =>
      (if a.isDigit && b.isDigit && 10 * digitVal a + digitVal b ≤ 23 then
         [(10 * digitVal a + digitVal b, ts)] else []) ++
      (if a.isDigit then [(digitVal a, b :: ts)] else [])
  | .H, [a] => if a.isDigit then [(digitVal a, [])] else []
  | .H, [] => []
  | .Mi, a :: b :: ts =>
      (if a.isDigit && b.isDigit && 10 * digitVal a + digitVal b ≤ 59 then
         [(10 * digitVal a + digitVal b, ts)] else []) ++
      (if a.isDigit then [(digitVal a, b :: ts)] else [])
  | .Mi, [a] => if a.isDigit then [(digitVal a, [])] else []
  | .Mi, [] => []
  | .S, a :: b :: ts =>
      (if a.isDigit && b.isDigit && 10 * digitVal a + digitVal b ≤ 61 then
         [(10 * digitVal a + digitVal b, ts)] else []) ++
      (if a.isDigit then [(digitVal a, b :: ts)] else [])
  | .S, [a] => if a.isDigit then [(digitVal a, [])] else []
  | .S, [] => []
  | .F, ts =>
      let ds := (ts.takeWhile Char.isDigit).take 6
      (List.range ds.length).map (fun i =>
        let j := ds.length - i
        (natOfDigits (ts.take j) * 10 ^ (6 - j), ts.drop j))

/-- Captured directive values, with `strptime`'s defaults (year 1900,
month 1, day 1, midnight). -/
structure Captures where
  y : Nat := 1900
  mo : Nat := 1
  d : Nat := 1
  h : Nat := 0
  mi : Nat := 0
  s : Nat := 0
  f : Nat := 0
deriving DecidableEq, Repr

/-- Record a directive's captured value. -/
def setCap : Piece → Nat → Captures → Captures
  | .lit _, _, c => c
  | .Y, v, c => { c with y := v }
  | .Mo, v, c => { c with mo := v }
  | .D, v, c => { c with d := v }
  | .H, v, c => { c with h := v }
  | .Mi, v, c => { c with mi := v }
  | .S, v, c => { c with s := v }
  | .F, v, c => { c with f := v }

/-- Backtracking matcher for a directive sequence against an input; the
whole input must be consumed (`_strptime` raises when the regex match does
not reach the end of the data string).  The `fuel` argument only drives
the structural recursion; one unit is spent per directive, so any fuel of
at least the directive count gives the matcher's meaning. -/
def matchFuel : Nat → List Piece → List Char → Captures → Option Captures
  | _, [], [], c => some c
  | _, [], _ :: _, _ => Option.none
  | 0, _ :: _, _, _ => Option.none
  | fuel + 1, p :: ps, ts, c =>
      (pieceCands p ts).findSome? (fun vr => matchFuel fuel ps vr.2 (setCap p vr.1 c))

/-- The matcher with exactly enough fuel for its directive list. -/
def matchPieces (ps : List Piece) (ts : List Char) (c : Captures) :
    Option Captures :=
  matchFuel ps.length ps ts c

/-- Validity of captured values, as enforced by the `datetime` constructor
call at the end of `strptime`. -/
def validCaptures (c : Captures) : Bool :=
  validDT ⟨c.y, c.mo, c.d, c.h, c.mi, c.s, c.f⟩

/-- Model of `datetime.strptime(data, fmt)` for one format: match the
directive sequence, then construct the datetime (which validates ranges);
any failure is a `ValueError`, modelled as `Option.none`. -/
def strptimeFmt (ps : List Piece) (cs : List Char) : Option PyDateTime :=
  match matchPieces ps cs {} with
  | some c => if validCaptures c then some ⟨c.y, c.mo, c.d, c.h, c.mi, c.s, c.f⟩
              else Option.none
  | Option.none => Option.none

/-- Does `pat` begin the list `s`? -/
def leadsWith : List Char → List Char → Bool
  | [], _ => true
  | _ :: _, [] => false
  | p :: ps, c :: cs => if p = c then leadsWith ps cs else false

/-- Model of Python `str.replace(pat, "")`: remove every (left-to-right,
non-overlapping) occurrence of `pat`.  At a match the whole pattern
(`pat.length` characters, i.e. the head plus `pat.length - 1` more) is
skipped.  The `fuel` argument only drives the structural recursion; each
step consumes at least one character, so any fuel of at least the input
length gives the function's meaning. -/
def stripFuel (pat : List Char) : Nat → List Char → List Char
  | _, [] => []
  | 0, l => l
  | fuel + 1, c :: cs =>
      if !pat.isEmpty && leadsWith pat (c :: cs) then
        stripFuel pat fuel (cs.drop (pat.length - 1))
      else
        c :: stripFuel pat fuel cs

/-- Occurrence removal with exactly enough fuel for its input. -/
def stripSub (pat : List Char) (s : List Char) : List Char :=
  stripFuel pat s.length s

/-- Directive sequence of `"%Y-%m-%dT%H:%M:%S"` (also the result of
stripping the trailing `Z` from `"%Y-%m-%dT%H:%M:%SZ"`). -/
def isoPieces : List Piece :=
  [.Y, .lit '-', .Mo, .lit '-', .D, .lit 'T', .H, .lit ':', .Mi, .lit ':', .S]

/-- Directive sequence of `"%Y-%m-%dT%H:%M:%S.%f"` (also of its
`Z`-stripped variant). -/
def isoFracPieces : List Piece := isoPieces ++ [.lit '.', .F]

/-- Directive sequence of `"%Y-%m-%d"`. -/
def ymdPieces : List Piece := [.Y, .lit '-', .Mo, .lit '-', .D]

/-- Directive sequence of `"%d/%m/%Y"`. -/
def dmyPieces : List Piece := [.D, .lit '/', .Mo, .lit '/', .Y]

/-- Directive sequence of `"%m/%d/%Y"`. -/
def mdyPieces : List Piece := [.Mo, .lit '/', .D, .lit '/', .Y]

/-- The `date_formats` list of `parse_date`, after the `fmt.replace("Z", "")`
applied to each format (which makes the two `Z`-suffixed entries duplicate
the first two). -/
def date_formats : List (List Piece) :=
  [isoPieces, isoFracPieces, isoPieces, isoFracPieces, ymdPieces, dmyPieces,
   mdyPieces]

/-- Model of a Python value as handled by the pipeline: `None`, booleans,
numbers (ints and floats, as rationals), strings, lists, dicts (association
lists of string keys, first binding wins), and `datetime` objects. -/
inductive PyVal where
  | none
  | bool (b : Bool)
  | num (q : ℚ)
  | str (s : String)
  | list (xs : List PyVal)
  | dict (entries : List (String × PyVal))
  | dt (d : PyDateTime)
deriving Repr

/-- Python truthiness: `None` and `False` are falsy, numbers are truthy
unless zero, strings and collections unless empty, `datetime` always. -/
def truthy : PyVal → Bool
  | PyVal.none => false
  | PyVal.bool b => b
  | PyVal.num q => !(q = 0)
  | PyVal.str s => !(s = "")
  | PyVal.list xs => !xs.isEmpty
  | PyVal.dict entries => !entries.isEmpty
  | PyVal.dt _ => true

/-- Python's short-circuiting `or`: the left operand when truthy, the right
operand otherwise. -/
def pyOr (a b : PyVal) : PyVal := if truthy a then a else b

/-- Raw API record: a JSON object, i.e. the entry list of a Python dict. -/
abbrev RawRecord := List (String × PyVal)

/-- Key lookup in a dict, distinguishing an absent key from a stored
`None`. -/
def lookupKey : RawRecord → String → Option PyVal
  | [], _ => Option.none
  | (k, v) :: rest, key => if k = key then some v else lookupKey rest key

/-- Model of `dict.get(key)`: the stored value, or `None` when absent. -/
def pyGet (o : RawRecord) (k : String) : PyVal := (lookupKey o k).getD PyVal.none

/-- Lower-case the first character: `field_name[0].lower() + field_name[1:]`. -/
def decap (s : String) : String :=
  match s.toList with
  | [] => ""
  | c :: cs => String.mk (c.toLower :: cs)

/-- Model of the `get_field` helper of `process_orders_dataframe`:
`order.get(field_name) or order.get(field_name[0].lower() + field_name[1:])`. -/
def get_field (o : RawRecord) (field_name : String) : PyVal :=
  pyOr (pyGet o field_name) (pyGet o (decap field_name))

/-- The character list `"+00:00"` stripped from date strings. -/
def plusPat : List Char := ['+', '0', '0', ':', '0', '0']

/-- The character `"Z"` stripped from date strings. -/
def zPat : List Char := ['Z']

/-- Model of `parse_date`: `None` passes through as null, `datetime`
objects are returned unchanged, non-strings give null, and strings are
matched (after removing `"+00:00"` and `"Z"`) against the fixed format
list, first success winning. -/
def parse_date : PyVal → Option PyDateTime
  | PyVal.dt d => some d
  | PyVal.str s =>
      let cleaned := stripSub zPat (stripSub plusPat s.toList)
      date_formats.findSome? (fun ps => strptimeFmt ps cleaned)
  | _ => Option.none

/-- ISO-8601 rendering of a `PyDateTime` (`datetime.isoformat()`): the
canonical string representation of a parsed timestamp, with the fractional
part printed as six digits exactly when the microsecond field is nonzero. -/
def isoChars (d : PyDateTime) : List Char :=
  pad4 d.year ++ '-' :: (pad2 d.month ++ '-' :: (pad2 d.day ++ 'T' ::
    (pad2 d.hour ++ ':' :: (pad2 d.minute ++ ':' ::
      (pad2 d.second ++ (if d.usec = 0 then [] else '.' :: pad6 d.usec))))))

/-- ISO-8601 rendering as a string. -/
def isoformat (d : PyDateTime) : String := String.mk (isoChars d)

/-- A calendar date, as produced by `datetime.date()` and
`datetime.now(tz).date()`. -/
structure PyDate where
  year : Nat
  month : Nat
  day : Nat
deriving DecidableEq, Repr

/-- The date part of a datetime (`.date()`). -/
def dateOf (d : PyDateTime) : PyDate := ⟨d.year, d.month, d.day⟩

/-- Days in the years before year `y` (proleptic Gregorian, as in
`datetime.date.toordinal`). -/
def daysBeforeYear (y : Nat) : Nat :=
  365 * (y - 1) + (y - 1) / 4 + (y - 1) / 400 - (y - 1) / 100

/-- Days in the months of year `y` before month `m`. -/
def daysBeforeMonth (y m : Nat) : Nat :=
  ((List.range (m - 1)).map (fun i => daysInMonth y (i + 1))).sum

/-- Ordinal day number of a date (`datetime.date.toordinal`). -/
def toOrdinal (d : PyDate) : Nat :=
  daysBeforeYear d.year + daysBeforeMonth d.year d.month + d.day

/-- Whole-day difference of two dates: `(a - b).days`. -/
def daysBetween (a b : PyDate) : Int := (toOrdinal a : Int) - (toOrdinal b : Int)

/-- The `DUE_SOON_DAYS` configuration constant (7 in both source files). -/
def DUE_SOON_DAYS : Int := 7

/-- String-equality test used for Python `==` between a value and a string
literal: only equal string objects compare equal. -/
def isStr (v : PyVal) (s : String) : Bool :=
  match v with
  | PyVal.str t => t = s
  | _ => false

/-- Numeric-equality test used for Python `==`/`!=` between a field value
and the numeric configuration constant `DISTRIBUTION_BRANCH_ID`; Python
booleans compare equal to 0/1 because `bool` is an `int` subclass. -/
def pyEqNum (v : PyVal) (q : ℚ) : Bool :=
  match v with
  | PyVal.num x => x = q
  | PyVal.bool b => (if b then (1 : ℚ) else 0) = q
  | _ => false

/-- The record-inclusion strategy of the classifier: app.py keeps records
whose distribution-branch id equals the configured numeric id (no filter
when the configured id is falsy); test.py keeps records whose stage string
starts with the configured prefix string (`WORKSHOP_STAGE_PREFIX`). -/
inductive Strategy where
  | branchId (bid : ℚ)
  | stageStarts (p : String)
  | noFilter
deriving Repr

/-- One processed row of the output DataFrame of
`process_orders_dataframe`. -/
structure Row where
  id : PyVal
  reference : PyVal
  projectName : PyVal
  company : PyVal
  createdDate : Option PyDateTime
  modifiedDate : Option PyDateTime
  stage : PyVal
  status : PyVal
  branchId : PyVal
  estimatedDeliveryDate : Option PyDateTime
  dispatchedDate : Option PyDateTime
  lineCount : Nat
  qtyTotal : ℚ
  sizeBucket : String
  workloadScore : ℚ
  isOverdue : Bool
  isDueSoon : Bool
  isOnTrack : Bool
  daysOverdue : Option Int
  hasLineItems : Bool
deriving Repr

/-- The classifier's void flag:
`order.get("IsVoid") or order.get("isVoid") or False`. -/
def void_of (o : RawRecord) : PyVal :=
  pyOr (pyGet o "IsVoid") (pyOr (pyGet o "isVoid") (PyVal.bool false))

/-- The classifier's stage value: `get_field("Stage") or ""` (test.py's
`order.get("Stage") or order.get("stage") or ""` denotes the same value). -/
def stage_of (o : RawRecord) : PyVal :=
  pyOr (get_field o "Stage") (PyVal.str "")

/-- The inclusion test of the classifier, per strategy.  `Option.none`
models the `AttributeError` raised by `stage.startswith` when the stage
value is a truthy non-string (impossible for API data, where `Stage` is a
string). -/
def include_order (strat : Strategy) (o : RawRecord) : Option Bool :=
  match strat with
  | Strategy.noFilter => some true
  | Strategy.branchId bid =>
      some (pyEqNum (pyOr (pyGet o "DistributionBranchId")
                          (pyGet o "distributionBranchId")) bid)
  | Strategy.stageStarts p =>
      match stage_of o with
      | PyVal.str s => some (leadsWith p.toList s.toList)
      | _ => Option.none

/-- The line-item list: `get_field("LineItems") or []`, which must be a
list to survive `len(...)` and iteration (`Option.none` models the
`TypeError` raised on a truthy non-list value). -/
def line_items_of (v : PyVal) : Option (List PyVal) :=
  match pyOr v (PyVal.list []) with
  | PyVal.list l => some l
  | _ => Option.none

/-- Model of `float(x)` restricted to unsigned plain decimal literals:
digits with an optional decimal point (`"7"`, `"7."`, `".5"`, `"2.25"`);
other strings fail (`ValueError`). -/
def parse_unsigned_float (cs : List Char) : Option ℚ :=
  let ip := cs.takeWhile Char.isDigit
  let rest := cs.dropWhile Char.isDigit
  match rest with
  | [] => if ip.isEmpty then Option.none else some ((natOfDigits ip : ℚ))
  | '.' :: fp =>
      let fd := fp.takeWhile Char.isDigit
      let rest2 := fp.dropWhile Char.isDigit
      if rest2.isEmpty && (!ip.isEmpty || !fd.isEmpty) then
        some ((natOfDigits ip : ℚ) + (natOfDigits fd : ℚ) / (10 ^ fd.length : ℚ))
      else Option.none
  | _ => Option.none

/-- Model of Python `float(qty)`: numbers pass through, booleans coerce to
0/1, strings are parsed as decimal literals after stripping surrounding
spaces, and every other type is a `TypeError` (`Option.none`). -/
def pyFloat : PyVal → Option ℚ
  | PyVal.num q => some q
  | PyVal.bool b => some (if b then 1 else 0)
  | PyVal.str s =>
      let cs := ((s.toList.dropWhile (· = ' ')).reverse.dropWhile (· = ' ')).reverse
      match cs with
      | '-' :: rest => (parse_unsigned_float rest).map (fun q => -q)
      | '+' :: rest => parse_unsigned_float rest
      | _ => parse_unsigned_float cs
  | _ => Option.none

/-- Contribution of one line item to `qty_total`: the quantity is read as
`item.get("Qty") or item.get("qty") or item.get("UomQtyOrdered") or
item.get("uomQtyOrdered") or 0`, then coerced with `float(...)`; a
coercion failure (`TypeError`/`ValueError`) is swallowed and contributes 0.
A non-dict item would raise `AttributeError` at `item.get` (`Option.none`). -/
def item_qty : PyVal → Option ℚ
  | PyVal.dict d =>
      let q := pyOr (pyGet d "Qty") (pyOr (pyGet d "qty")
                 (pyOr (pyGet d "UomQtyOrdered")
                   (pyOr (pyGet d "uomQtyOrdered") (PyVal.num 0))))
      some ((pyFloat q).getD 0)
  | _ => Option.none

/-- The urgency state machine of the classifier: evaluated only when the
parsed estimated delivery is non-null and the order is not dispatched
(stage equals `"Dispatched"` or a dispatch timestamp is present); the
whole-day difference to today selects Overdue (with `days_overdue =
abs(days_until_due)`), DueSoon (inclusive 7-day threshold) or OnTrack;
otherwise all flags stay false and `days_overdue` stays null.  The result
is `(is_overdue, is_due_soon, is_on_track, days_overdue)`. -/
def urgency_flags (estimated dispatched : Option PyDateTime) (stage : PyVal)
    (today : PyDate) : Bool × Bool × Bool × Option Int :=
  let isDispatched := isStr stage "Dispatched" || dispatched.isSome
  match estimated with
  | some e =>
      if isDispatched then (false, false, false, Option.none)
      else
        let daysUntilDue := daysBetween (dateOf e) today
        if daysUntilDue < 0 then (true, false, false, some (-daysUntilDue))
        else if daysUntilDue ≤ DUE_SOON_DAYS then (false, true, false, Option.none)
        else (false, false, true, Option.none)
  | Option.none => (false, false, false, Option.none)

/-- The loop body of `process_orders_dataframe` for one raw record:
`Option.none` when the record is skipped (void, or failing the inclusion
strategy) and also when the source would raise on malformed data (truthy
non-list `LineItems`, non-dict line item). -/
def process_order (strat : Strategy) (today : PyDate) (o : RawRecord) :
    Option Row :=
  if truthy (void_of o) then Option.none else
  match include_order strat o with
  | Option.none => Option.none
  | some false => Option.none
  | some true =>
    match line_items_of (get_field o "LineItems") with
    | Option.none => Option.none
    | some items =>
      match items.mapM item_qty with
      | Option.none => Option.none
      | some qtys =>
        let created := parse_date (get_field o "CreatedDate")
        let modified := parse_date (get_field o "ModifiedDate")
        let estimated := parse_date (get_field o "EstimatedDeliveryDate")
        let dispatched := parse_date (get_field o "DispatchedDate")
        let lineCount := items.length
        let qtyTotal : ℚ := qtys.sum
        let sizeBucket := if lineCount < 10 then "S"
                          else if lineCount < 30 then "M" else "L"
        let workloadScore : ℚ := (lineCount : ℚ) + qtyTotal / 10
        let stage := stage_of o
        let uf := urgency_flags estimated dispatched stage today
        some {
          id := get_field o "Id"
          reference := pyOr (get_field o "Reference") (PyVal.str "")
          projectName := pyOr (get_field o "ProjectName") (PyVal.str "")
          company := pyOr (get_field o "Company") (PyVal.str "")
          createdDate := created
          modifiedDate := modified
          stage := stage
          status := pyOr (get_field o "Status") (PyVal.str "")
          branchId := get_field o "BranchId"
          estimatedDeliveryDate := estimated
          dispatchedDate := dispatched
          lineCount := lineCount
          qtyTotal := qtyTotal
          sizeBucket := sizeBucket
          workloadScore := workloadScore
          isOverdue := uf.1
          isDueSoon := uf.2.1
          isOnTrack := uf.2.2.1
          daysOverdue := uf.2.2.2
          hasLineItems := !items.isEmpty }

/-- Model of `process_orders_dataframe`: process the records in order,
dropping the skipped ones. -/
def process_orders_dataframe (strat : Strategy) (today : PyDate)
    (orders : List RawRecord) : List Row :=
  orders.filterMap (process_order strat today)

/-- Outcome of one HTTP request attempt made by `request_json`. -/
inductive HttpResp where
  | ok (body : PyVal)
  | status (code : Nat)
  | timeout
  | connError
  | reqError
deriving Repr

/-- Result of `request_json`: a parsed body, an authentication halt
(`st.stop()` on 401/403, which aborts the whole run), or `None` after
exhausting the retries (carrying the last recorded error, if any — a 429
attempt does not record one). -/
inductive ReqOutcome where
  | success (body : PyVal)
  | authAbort (code : Nat)
  | failed (lastError : Option HttpResp)
deriving Repr

/-- The retry loop of `request_json` over a stream of attempt outcomes
(`resp i` is the outcome of the `i`-th HTTP request of the whole run):
200 returns at once, 401/403 halts at once, 429 retries without recording
an error, and any other status / timeout / connection failure records the
error and retries; the attempt budget is `API_MAX_RETRIES = 3`.  Returns
the outcome together with the next unused stream index. -/
def requestLoop (resp : Nat → HttpResp) : Nat → Nat → Option HttpResp →
    ReqOutcome × Nat
  | idx, 0, lastError => (ReqOutcome.failed lastError, idx)
  | idx, fuel + 1, lastError =>
      match resp idx with
      | HttpResp.ok body => (ReqOutcome.success body, idx + 1)
      | HttpResp.status code =>
          if code = 401 ∨ code = 403 then (ReqOutcome.authAbort code, idx + 1)
          else if code = 429 then requestLoop resp (idx + 1) fuel lastError
          else requestLoop resp (idx + 1) fuel (some (HttpResp.status code))
      | e => requestLoop resp (idx + 1) fuel (some e)

/-- Model of `request_json` for one page request starting at stream
position `idx`. -/
def request_json (resp : Nat → HttpResp) (idx : Nat) : ReqOutcome × Nat :=
  requestLoop resp idx 3 Option.none

/-- Envelope tolerance of `fetch_sales_orders`: a bare list is taken as
is; a dict exposes the list under `"data"` then `"Data"` (the stored value
even when present-but-non-list, in which case a dict with a truthy `"Id"`
is a one-record page and anything else an empty page); any other body
breaks pagination (`Option.none`). -/
def extractOrders (body : PyVal) : Option (List PyVal) :=
  match body with
  | PyVal.list l => some l
  | PyVal.dict d =>
      let orders := match lookupKey d "data" with
                    | some v => v
                    | Option.none =>
                        match lookupKey d "Data" with
                        | some v => v
                        | Option.none => PyVal.list []
      match orders with
      | PyVal.list l => some l
      | _ => if truthy (pyGet d "Id") then some [PyVal.dict d] else some []
  | _ => Option.none

/-- Result of the pagination loop: either the accumulated raw records
(with the next unused stream index, a truncation flag for the 100-page
safety ceiling, a flag for a page whose retries were exhausted, and that
page's last error), or an abort on 401/403 (`st.stop()`: nothing is
returned at all). -/
inductive FetchOutcome where
  | done (records : List PyVal) (nextIdx : Nat) (truncated : Bool)
      (pageFailed : Bool) (lastError : Option HttpResp)
  | aborted (code : Nat)
deriving Repr

/-- The pagination loop of `fetch_sales_orders`: request pages of
`rows_per_page = 250` starting at page 1; stop on a failed request
(returning what was accumulated), on an unusable or empty body, or on the
first short page; otherwise continue, stopping with a truncation warning
when the next page number would exceed 100.  `fuel` bounds the recursion
and is never exhausted when starting from page 1 with fuel 100. -/
def fetchLoop (resp : Nat → HttpResp) : Nat → Nat → Nat → List PyVal →
    FetchOutcome
  | 0, _, idx, acc => FetchOutcome.done acc idx false false Option.none
  | fuel + 1, page, idx, acc =>
      match request_json resp idx with
      | (ReqOutcome.authAbort c, _) => FetchOutcome.aborted c
      | (ReqOutcome.failed e, idx') => FetchOutcome.done acc idx' false true e
      | (ReqOutcome.success body, idx') =>
          match extractOrders body with
          | Option.none => FetchOutcome.done acc idx' false false Option.none
          | some orders =>
              if orders.isEmpty then
                FetchOutcome.done acc idx' false false Option.none
              else
                let acc' := acc ++ orders
                if orders.length < 250 then
                  FetchOutcome.done acc' idx' false false Option.none
                else if page + 1 > 100 then
                  FetchOutcome.done acc' idx' true false Option.none
                else fetchLoop resp fuel (page + 1) idx' acc'

/-- Model of `fetch_sales_orders` up to (and excluding) the final
`process_orders_dataframe` call: the raw records gathered from the remote
stream. -/
def fetch_sales_orders (resp : Nat → HttpResp) : FetchOutcome :=
  fetchLoop resp 100 1 0 []

/-- Transient request outcomes: timeout, connection failure, request
exception, or a status other than 200/401/403/429 — exactly the cases
that record `last_error` and consume a retry. -/
def transient : HttpResp → Bool
  | HttpResp.ok _ => false
  | HttpResp.status c => !(c = 401 || c = 403 || c = 429)
  | _ => true

/-- Numeric key of a datetime, monotone in chronological order (used only
to order rows inside board sections). -/
def dtNum (d : PyDateTime) : Nat :=
  ((toOrdinal (dateOf d) * 24 + d.hour) * 3600 + d.minute * 60 + d.second)
    * 1000000 + d.usec

/-- Ascending comparison on optional datetimes with nulls last, as pandas
`sort_values` places `NaT`. -/
def oDtLe (a b : Option PyDateTime) : Bool :=
  match a, b with
  | Option.none, Option.none => true
  | Option.none, some _ => false
  | some _, Option.none => true
  | some x, some y => dtNum x ≤ dtNum y

/-- Strict version of `oDtLe`. -/
def oDtLt (a b : Option PyDateTime) : Bool :=
  match a, b with
  | some x, some y => dtNum x < dtNum y
  | some _, Option.none => true
  | Option.none, _ => false

/-- Insert into a list sorted by `le`. -/
def insertLe (le : Row → Row → Bool) (x : Row) : List Row → List Row
  | [] => [x]
  | y :: ys => if le x y then x :: y :: ys else y :: insertLe le x ys

/-- Sort rows by `le` (insertion sort; only the ordering matters for the
board, and only membership for the claims below). -/
def sortRows (le : Row → Row → Bool) : List Row → List Row
  | [] => []
  | x :: xs => insertLe le x (sortRows le xs)

/-- Sort key of the "Currently in Workshop" section: `IsOverdue`
descending, then `IsDueSoon` descending, then ETA ascending. -/
def working_le (r1 r2 : Row) : Bool :=
  if r1.isOverdue = r2.isOverdue then
    if r1.isDueSoon = r2.isDueSoon then
      oDtLe r1.estimatedDeliveryDate r2.estimatedDeliveryDate
    else r1.isDueSoon
  else r1.isOverdue

/-- Sort key of the "To Collect" section: ETA ascending, then created date
ascending. -/
def collect_le (r1 r2 : Row) : Bool :=
  if oDtLt r1.estimatedDeliveryDate r2.estimatedDeliveryDate then true
  else if oDtLt r2.estimatedDeliveryDate r1.estimatedDeliveryDate then false
  else oDtLe r1.createdDate r2.createdDate

/-- Sort key of the "Overdue" section: days overdue descending. -/
def overdue_le (r1 r2 : Row) : Bool :=
  r2.daysOverdue.getD 0 ≤ r1.daysOverdue.getD 0

/-- Sort key of the "Needs ETD" section: created date ascending. -/
def needs_le (r1 r2 : Row) : Bool := oDtLe r1.createdDate r2.createdDate

/-- Sort key of the "Jobs in Queue" column: ETA ascending. -/
def queue_le (r1 r2 : Row) : Bool :=
  oDtLe r1.estimatedDeliveryDate r2.estimatedDeliveryDate

/-- The "Currently in Workshop" section of test.py's `render_board`: all
rows whose stage is `"Workshop - Processing"`, drawn from the full
collection. -/
def render_currently_working_on (df : List Row) : List Row :=
  sortRows working_le (df.filter (fun r => isStr r.stage "Workshop - Processing"))

/-- The "To Collect" section: all rows whose stage is
`"Workshop - To Collect"`, drawn from the full collection. -/
def render_to_collect (df : List Row) : List Row :=
  sortRows collect_le (df.filter (fun r => isStr r.stage "Workshop - To Collect"))

/-- The "Overdue" section: all rows with `IsOverdue`, drawn from the full
collection (not from a pool with earlier sections removed). -/
def render_overdue (df : List Row) : List Row :=
  sortRows overdue_le (df.filter (fun r => r.isOverdue))

/-- The "Needs ETD" section: all rows with no urgency flag set, drawn from
the full collection. -/
def render_needs_etd (df : List Row) : List Row :=
  sortRows needs_le
    (df.filter (fun r => !r.isOverdue && !r.isDueSoon && !r.isOnTrack))

/-- The "Jobs in Queue" column: due-soon rows after excluding the
Processing and To Collect stages and the overdue rows — the only group
computed from a reduced pool. -/
def jobs_in_queue (df : List Row) : List Row :=
  sortRows queue_le
    (df.filter (fun r =>
      !(isStr r.stage "Workshop - Processing") &&
      !(isStr r.stage "Workshop - To Collect") &&
      !r.isOverdue && r.isDueSoon))

/-- A fixed current date used for the concrete evaluations below
(2026-10-12). -/
def todayW : PyDate := ⟨2026, 10, 12⟩

/-- The test.py deployment's inclusion strategy
(`WORKSHOP_STAGE_PREFIX = "Workshop - "`). -/
def stratW : Strategy := Strategy.stageStarts "Workshop - "

/-- A throwaway row used only as the (never taken) default of `Option.getD`
when naming concretely computed rows. -/
def dummyRow : Row :=
  { id := PyVal.none, reference := PyVal.none, projectName := PyVal.none,
    company := PyVal.none, createdDate := Option.none,
    modifiedDate := Option.none, stage := PyVal.none, status := PyVal.none,
    branchId := PyVal.none, estimatedDeliveryDate := Option.none,
    dispatchedDate := Option.none, lineCount := 0, qtyTotal := 0,
    sizeBucket := "", workloadScore := 0, isOverdue := false,
    isDueSoon := false, isOnTrack := false, daysOverdue := Option.none,
    hasLineItems := false }

/-- A raw in-progress order eleven days past its estimated delivery. -/
def recC2 : RawRecord :=
  [("Stage", PyVal.str "Workshop - Processing"),
   ("EstimatedDeliveryDate", PyVal.str "2026-10-01")]

/-- The row the classifier produces for `recC2`. -/
def rowC2 : Row := (process_order stratW todayW recC2).getD dummyRow

/-- The one-order collection built from `recC2`. -/
def dfC2 : List Row := process_orders_dataframe stratW todayW [recC2]

/-- A raw order in a non-dedicated workshop stage, due in two days. -/
def recQ : RawRecord :=
  [("Stage", PyVal.str "Workshop - Fitting"),
   ("EstimatedDeliveryDate", PyVal.str "2026-10-14")]

/-- The row the classifier produces for `recQ`. -/
def rowQ : Row := (process_order stratW todayW recQ).getD dummyRow

/-- The one-order collection built from `recQ`. -/
def dfQ : List Row := process_orders_dataframe stratW todayW [recQ]

/-- A raw order flagged void. -/
def recVoid : RawRecord := [("IsVoid", PyVal.bool true)]

/-- The parsed timestamp of `"2026-10-01"`. -/
def dtW : PyDateTime := ⟨2026, 10, 1, 0, 0, 0, 0⟩

/-- A remote source answering pages of 250, 250 and 40 records. -/
def respC4 : Nat → HttpResp := fun i =>
  if i = 0 then HttpResp.ok (PyVal.list (List.replicate 250 PyVal.none))
  else if i = 1 then HttpResp.ok (PyVal.list (List.replicate 250 PyVal.none))
  else HttpResp.ok (PyVal.list (List.replicate 40 PyVal.none))

/-- A remote source whose second page times out on every attempt. -/
def respC5 : Nat → HttpResp := fun i =>
  if i = 0 then HttpResp.ok (PyVal.list (List.replicate 250 PyVal.none))
  else HttpResp.timeout

/-- A remote source answering 401 to everything. -/
def respC9 : Nat → HttpResp := fun _ => HttpResp.status 401

/-! ## Theorems -/

theorem mem_insertLe (le : Row → Row → Bool) (x : Row) :
    ∀ (l : List Row) (a : Row), a ∈ insertLe le x l ↔ a = x ∨ a ∈ l := by
  intro l
  induction l with
  | nil => intro a; simp [insertLe]
  | cons y ys ih =>
      intro a
      simp only [insertLe]
      split
      · simp [List.mem_cons]
      · simp only [List.mem_cons, ih]
        tauto

theorem mem_sortRows (le : Row → Row → Bool) :
    ∀ (l : List Row) (a : Row), a ∈ sortRows le l ↔ a ∈ l := by
  intro l
  induction l with
  | nil => intro a; simp [sortRows]
  | cons x xs ih =>
      intro a
      simp [sortRows, mem_insertLe, ih, List.mem_cons]

/-- C2 (as stated, refuted): a concrete in-progress order
(`stage = "Workshop - Processing"`, eleven days overdue) is placed in two
output groups at once — it is the sole member of both the
"Currently in Workshop" section and the "Overdue" section, because
test.py's `render_board` hands the full collection to `render_overdue`
instead of a pool with earlier groups removed. -/
theorem claim_C2_counterexample :
    dfC2.length = 1 ∧
    render_currently_working_on dfC2 = dfC2 ∧
    render_overdue dfC2 = dfC2 ∧
    isStr rowC2.stage "Workshop - Processing" = true := by
  exact ⟨rfl, rfl, rfl, rfl⟩

/-- C2 (amended): only the "Jobs in Queue" column is computed from a
reduced pool, so a queue order appears in none of the dedicated sections;
the dedicated sections themselves each draw from the full collection and
may repeat an order. -/
theorem claim_C2 (df : List Row) (r : Row) (hq : r ∈ jobs_in_queue df) :
    r ∉ render_currently_working_on df ∧ r ∉ render_to_collect df ∧
    r ∉ render_overdue df ∧ r ∉ render_needs_etd df := by
  rw [jobs_in_queue, mem_sortRows, List.mem_filter] at hq
  obtain ⟨-, hcond⟩ := hq
  simp only [Bool.and_eq_true, Bool.not_eq_true'] at hcond
  obtain ⟨⟨⟨hP, hC⟩, hOv⟩, hDS⟩ := hcond
  refine ⟨?_, ?_, ?_, ?_⟩ <;> intro hmem
  · rw [render_currently_working_on, mem_sortRows, List.mem_filter] at hmem
    exact absurd hmem.2 (by simp [hP])
  · rw [render_to_collect, mem_sortRows, List.mem_filter] at hmem
    exact absurd hmem.2 (by simp [hC])
  · rw [render_overdue, mem_sortRows, List.mem_filter] at hmem
    exact absurd hmem.2 (by simp [hOv])
  · rw [render_needs_etd, mem_sortRows, List.mem_filter] at hmem
    have h2 := hmem.2
    simp only [Bool.and_eq_true, Bool.not_eq_true'] at h2
    exact absurd hDS (by simp [h2.1.2])

/-- Witness for C2 (amended) at a concrete due-soon order. -/
theorem claim_C2_witness :
    rowQ ∈ jobs_in_queue dfQ ∧ rowQ ∉ render_overdue dfQ ∧
    rowQ ∉ render_currently_working_on dfQ :=
  have h : rowQ ∈ jobs_in_queue dfQ := List.Mem.head _
  ⟨h, (claim_C2 dfQ rowQ h).2.2.1, (claim_C2 dfQ rowQ h).1⟩

/-- C3 (as stated, refuted): `get_field` skips a non-null but falsy
PascalCase value — on a record with `Reference = ""` and
`reference = "abc"` it returns `"abc"`, not the stored non-null `""`. -/
theorem claim_C3_counterexample :
    get_field [("Reference", PyVal.str ""), ("reference", PyVal.str "abc")]
        "Reference" = PyVal.str "abc" ∧
    pyGet [("Reference", PyVal.str ""), ("reference", PyVal.str "abc")]
        "Reference" = PyVal.str "" ∧
    PyVal.str "" ≠ PyVal.none ∧ PyVal.str "abc" ≠ PyVal.str "" := by
  refine ⟨rfl, rfl, fun h => PyVal.noConfusion h, fun h => ?_⟩
  injection h with h'
  exact absurd h' (by decide)

/-- C3 (amended): `get_field` returns the value under the PascalCase key
when that value is truthy, and otherwise the `dict.get` result of the
camelCase key (so a falsy PascalCase value — `""`, `0`, `False`, `None` —
is skipped); when both keys are absent the result is null.  The lookup is
pure and total. -/
theorem claim_C3 (o : RawRecord) (name : String) :
    (truthy (pyGet o name) = true → get_field o name = pyGet o name) ∧
    (truthy (pyGet o name) = false → get_field o name = pyGet o (decap name)) ∧
    (lookupKey o name = Option.none → lookupKey o (decap name) = Option.none →
      get_field o name = PyVal.none) := by
  refine ⟨fun h => ?_, fun h => ?_, fun h1 h2 => ?_⟩
  · simp [get_field, pyOr, h]
  · simp [get_field, pyOr, h]
  · simp [get_field, pyOr, pyGet, h1, h2, truthy]

/-- Witness for C3 (amended) at a concrete record. -/
theorem claim_C3_witness :
    truthy (pyGet [("Reference", PyVal.str "R1")] "Reference") = true ∧
    get_field [("Reference", PyVal.str "R1")] "Reference" = PyVal.str "R1" :=
  ⟨rfl, (claim_C3 [("Reference", PyVal.str "R1")] "Reference").1 rfl⟩

/-- C7: a record whose void flag (`IsVoid` or `isVoid`) is truthy is
skipped by the classifier and contributes nothing to the output
collection, regardless of any other attribute. -/
theorem claim_C7 (strat : Strategy) (today : PyDate) (o : RawRecord)
    (h : truthy (void_of o) = true) :
    process_order strat today o = Option.none ∧
    ∀ pre post : List RawRecord,
      process_orders_dataframe strat today (pre ++ o :: post) =
        process_orders_dataframe strat today (pre ++ post) := by
  have h1 : process_order strat today o = Option.none := by
    simp [process_order, h]
  refine ⟨h1, fun pre post => ?_⟩
  simp [process_orders_dataframe, List.filterMap_append, List.filterMap_cons, h1]

/-- Witness for C7 at a concrete void record. -/
theorem claim_C7_witness :
    truthy (void_of recVoid) = true ∧
    process_order stratW todayW recVoid = Option.none :=
  ⟨rfl, (claim_C7 stratW todayW recVoid rfl).1⟩

/-- C10 (as stated, refuted): a line item can contribute 0 even when a
quantity variant is present and truthy — a non-numeric quantity string is
selected, fails `float(...)` coercion, and is swallowed as 0. -/
theorem claim_C10_counterexample :
    truthy (pyGet [("Qty", PyVal.str "x")] "Qty") = true ∧
    item_qty (PyVal.dict [("Qty", PyVal.str "x")]) = some 0 :=
  ⟨rfl, rfl⟩

/-- C10 (amended): the quantity keys are consulted in the priority order
`Qty`, `qty`, `UomQtyOrdered`, `uomQtyOrdered` and a falsy value under a
higher-priority key is skipped in favour of a later key — in particular
`Qty = 0` with `UomQtyOrdered = 7` contributes 7, not 0; a truthy `Qty`
value is always the one selected; and when every variant is absent or
falsy the item contributes 0 (as it also does when the selected value
fails numeric coercion). -/
theorem claim_C10 (entries : List (String × PyVal)) :
    (pyGet entries "Qty" = PyVal.num 0 → truthy (pyGet entries "qty") = false →
      pyGet entries "UomQtyOrdered" = PyVal.num 7 →
      item_qty (PyVal.dict entries) = some 7) ∧
    (truthy (pyGet entries "Qty") = true →
      item_qty (PyVal.dict entries) =
        some ((pyFloat (pyGet entries "Qty")).getD 0)) ∧
    (truthy (pyGet entries "Qty") = false → truthy (pyGet entries "qty") = false →
      truthy (pyGet entries "UomQtyOrdered") = false →
      truthy (pyGet entries "uomQtyOrdered") = false →
      item_qty (PyVal.dict entries) = some 0) := by
  have t0 : truthy (PyVal.num 0) = false := by simp [truthy]
  have t7 : truthy (PyVal.num 7) = true := by norm_num [truthy]
  refine ⟨fun h1 h2 h3 => ?_, fun h => ?_, fun h1 h2 h3 h4 => ?_⟩
  · simp [item_qty, pyOr, h1, h2, h3, t0, t7, pyFloat]
  · simp [item_qty, pyOr, h]
  · simp [item_qty, pyOr, h1, h2, h3, h4, pyFloat]

/-- Witness for C10 (amended) at the concrete item of the claim
(`Qty = 0`, `UomQtyOrdered = 7`). -/
theorem claim_C10_witness :
    item_qty (PyVal.dict [("Qty", PyVal.num 0), ("UomQtyOrdered", PyVal.num 7)]) =
      some 7 :=
  (claim_C10 [("Qty", PyVal.num 0), ("UomQtyOrdered", PyVal.num 7)]).1 rfl rfl rfl

theorem process_order_some_eq (strat : Strategy) (today : PyDate)
    (o : RawRecord) (row : Row) (h : process_order strat today o = some row) :
    row.isOverdue =
      (urgency_flags row.estimatedDeliveryDate row.dispatchedDate row.stage
        today).1 ∧
    row.isDueSoon =
      (urgency_flags row.estimatedDeliveryDate row.dispatchedDate row.stage
        today).2.1 ∧
    row.isOnTrack =
      (urgency_flags row.estimatedDeliveryDate row.dispatchedDate row.stage
        today).2.2.1 ∧
    row.daysOverdue =
      (urgency_flags row.estimatedDeliveryDate row.dispatchedDate row.stage
        today).2.2.2 := by
  rw [process_order] at h
  split at h
  · exact absurd h (by simp)
  · split at h
    · exact absurd h (by simp)
    · exact absurd h (by simp)
    · split at h
      · exact absurd h (by simp)
      · split at h
        · exact absurd h (by simp)
        · injection h with h
          subst h
          exact ⟨rfl, rfl, rfl, rfl⟩

/-- C1: for every record the classifier accepts, the urgency flags follow
the state machine exactly: with a non-null parsed ETA and the order not
dispatched (stage `"Dispatched"` or a dispatch timestamp present), the
whole-day difference `daysUntilDue` to today yields Overdue with
`daysOverdue = -daysUntilDue` when negative, DueSoon when between 0 and 7
inclusive, and OnTrack above 7; otherwise (null ETA, or dispatched even
with an ETA) no flag is set and `daysOverdue` is null. -/
theorem claim_C1 (strat : Strategy) (today : PyDate) (o : RawRecord)
    (row : Row) (h : process_order strat today o = some row) :
    ((row.estimatedDeliveryDate = Option.none ∨
        isStr row.stage "Dispatched" = true ∨ row.dispatchedDate.isSome = true) →
      row.isOverdue = false ∧ row.isDueSoon = false ∧ row.isOnTrack = false ∧
      row.daysOverdue = Option.none) ∧
    (∀ e, row.estimatedDeliveryDate = some e →
      isStr row.stage "Dispatched" = false → row.dispatchedDate = Option.none →
      ((daysBetween (dateOf e) today < 0 →
          row.isOverdue = true ∧ row.isDueSoon = false ∧ row.isOnTrack = false ∧
          row.daysOverdue = some (-(daysBetween (dateOf e) today))) ∧
       (0 ≤ daysBetween (dateOf e) today ∧ daysBetween (dateOf e) today ≤ 7 →
          row.isDueSoon = true ∧ row.isOverdue = false ∧ row.isOnTrack = false ∧
          row.daysOverdue = Option.none) ∧
       (7 < daysBetween (dateOf e) today →
          row.isOnTrack = true ∧ row.isOverdue = false ∧ row.isDueSoon = false ∧
          row.daysOverdue = Option.none))) := by
  obtain ⟨h1, h2, h3, h4⟩ := process_order_some_eq strat today o row h
  constructor
  · rintro (he | hs | hd)
    · rw [h1, h2, h3, h4, he]
      simp [urgency_flags]
    · rw [h1, h2, h3, h4]
      cases he : row.estimatedDeliveryDate with
      | none => simp [urgency_flags]
      | some e => simp [urgency_flags, hs]
    · rw [h1, h2, h3, h4]
      cases he : row.estimatedDeliveryDate with
      | none => simp [urgency_flags]
      | some e => simp [urgency_flags, hd]
  · intro e he hs hd
    rw [h1, h2, h3, h4, he, hd]
    simp only [urgency_flags, hs, Option.isSome_none, Bool.or_false,
      Bool.false_eq_true, if_false]
    refine ⟨fun hlt => ?_, fun hband => ?_, fun hgt => ?_⟩
    · rw [if_pos hlt]
      exact ⟨rfl, rfl, rfl, rfl⟩
    · rw [if_neg (by omega), if_pos (by simp only [DUE_SOON_DAYS]; omega)]
      exact ⟨rfl, rfl, rfl, rfl⟩
    · rw [if_neg (by omega), if_neg (by simp only [DUE_SOON_DAYS]; omega)]
      exact ⟨rfl, rfl, rfl, rfl⟩

/-- Witness for C1 at a concrete record eleven days overdue. -/
theorem claim_C1_witness :
    process_order stratW todayW recC2 = some rowC2 ∧
    rowC2.isOverdue = true ∧ rowC2.daysOverdue = some 11 := by
  have h : process_order stratW todayW recC2 = some rowC2 := rfl
  have hc := (claim_C1 stratW todayW recC2 rowC2 h).2 ⟨2026, 10, 1, 0, 0, 0, 0⟩
    rfl rfl rfl
  have hover := hc.1 (by decide)
  refine ⟨h, hover.1, ?_⟩
  rw [hover.2.2.2]
  decide

/-- C8: for every row the classifier produces, at most one urgency flag is
set (NoDate being exactly the all-false state), and `daysOverdue` is
non-null if and only if the row is Overdue. -/
theorem claim_C8 (strat : Strategy) (today : PyDate) (o : RawRecord)
    (row : Row) (h : process_order strat today o = some row) :
    ¬(row.isOverdue = true ∧ row.isDueSoon = true) ∧
    ¬(row.isOverdue = true ∧ row.isOnTrack = true) ∧
    ¬(row.isDueSoon = true ∧ row.isOnTrack = true) ∧
    (row.daysOverdue.isSome = true ↔ row.isOverdue = true) := by
  obtain ⟨h1, h2, h3, h4⟩ := process_order_some_eq strat today o row h
  rw [h1, h2, h3, h4]
  cases he : row.estimatedDeliveryDate with
  | none => simp [urgency_flags]
  | some e =>
      simp only [urgency_flags]
      split
      · simp
      · split
        · simp
        · split <;> simp

/-- Witness for C8 at a concrete overdue row. -/
theorem claim_C8_witness :
    process_order stratW todayW recC2 = some rowC2 ∧
    (rowC2.daysOverdue.isSome = true ↔ rowC2.isOverdue = true) :=
  ⟨rfl, (claim_C8 stratW todayW recC2 rowC2 rfl).2.2.2⟩

theorem isEmpty_eq_false_of_length_ne_zero (l : List PyVal) (h : l.length ≠ 0) :
    l.isEmpty = false := by
  cases l with
  | nil => simp at h
  | cons a t => rfl

theorem request_json_ok (resp : Nat → HttpResp) (idx : Nat) (body : PyVal)
    (hr : resp idx = HttpResp.ok body) :
    request_json resp idx = (ReqOutcome.success body, idx + 1) := by
  rw [request_json, show (3 : Nat) = 2 + 1 from rfl]
  simp [requestLoop, hr]

theorem requestLoop_transient_succ (resp : Nat → HttpResp) (idx fuel : Nat)
    (lastErr : Option HttpResp) (h : transient (resp idx) = true) :
    requestLoop resp idx (fuel + 1) lastErr =
      requestLoop resp (idx + 1) fuel (some (resp idx)) := by
  cases hr : resp idx with
  | ok body => rw [hr] at h; simp [transient] at h
  | status code =>
      rw [hr] at h
      simp only [transient, Bool.not_eq_true'] at h
      simp only [Bool.or_eq_false_iff, decide_eq_false_iff_not] at h
      simp [requestLoop, hr, h.1.1, h.1.2, h.2]
  | timeout => simp [requestLoop, hr]
  | connError => simp [requestLoop, hr]
  | reqError => simp [requestLoop, hr]

theorem requestLoop_transient3 (resp : Nat → HttpResp) (idx : Nat)
    (t1 : transient (resp idx) = true) (t2 : transient (resp (idx + 1)) = true)
    (t3 : transient (resp (idx + 2)) = true) :
    request_json resp idx =
      (ReqOutcome.failed (some (resp (idx + 2))), idx + 3) := by
  rw [request_json, show (3 : Nat) = 2 + 1 from rfl,
    requestLoop_transient_succ resp idx 2 Option.none t1,
    requestLoop_transient_succ resp (idx + 1) 1 _ t2,
    requestLoop_transient_succ resp (idx + 2) 0 _ t3]
  rfl

theorem fetchLoop_failed (resp : Nat → HttpResp) (fuel page idx : Nat)
    (acc : List PyVal) (t1 : transient (resp idx) = true)
    (t2 : transient (resp (idx + 1)) = true)
    (t3 : transient (resp (idx + 2)) = true) :
    fetchLoop resp (fuel + 1) page idx acc =
      FetchOutcome.done acc (idx + 3) false true (some (resp (idx + 2))) := by
  have hreq := requestLoop_transient3 resp idx t1 t2 t3
  simp [fetchLoop, hreq]

theorem fetchLoop_ok_step (resp : Nat → HttpResp) (fuel page idx : Nat)
    (acc l : List PyVal) (hr : resp idx = HttpResp.ok (PyVal.list l))
    (hne : l.isEmpty = false) (hlen : ¬l.length < 250)
    (hpage : ¬page + 1 > 100) :
    fetchLoop resp (fuel + 1) page idx acc =
      fetchLoop resp fuel (page + 1) (idx + 1) (acc ++ l) := by
  have hreq := request_json_ok resp idx (PyVal.list l) hr
  simp [fetchLoop, hreq, extractOrders, hne, hlen, hpage]

theorem fetchLoop_last_step (resp : Nat → HttpResp) (fuel page idx : Nat)
    (acc l : List PyVal) (hr : resp idx = HttpResp.ok (PyVal.list l))
    (hne : l.isEmpty = false) (hlen : l.length < 250) :
    fetchLoop resp (fuel + 1) page idx acc =
      FetchOutcome.done (acc ++ l) (idx + 1) false false Option.none := by
  have hreq := request_json_ok resp idx (PyVal.list l) hr
  simp [fetchLoop, hreq, extractOrders, hne, hlen]

/-- C4: for any remote source whose first three pages have sizes 250, 250
and 40, the fetcher issues exactly 3 page requests (it never consults the
stream past index 2) and returns all 540 records; it pages sequentially,
continuing exactly while pages are full and stopping at the first short
page. -/
theorem claim_C4 (resp : Nat → HttpResp) (p1 p2 p3 : List PyVal)
    (h0 : resp 0 = HttpResp.ok (PyVal.list p1))
    (h1 : resp 1 = HttpResp.ok (PyVal.list p2))
    (h2 : resp 2 = HttpResp.ok (PyVal.list p3))
    (l1 : p1.length = 250) (l2 : p2.length = 250) (l3 : p3.length = 40) :
    fetch_sales_orders resp =
      FetchOutcome.done (p1 ++ (p2 ++ p3)) 3 false false Option.none ∧
    (p1 ++ (p2 ++ p3)).length = 540 := by
  constructor
  · calc fetch_sales_orders resp
        = fetchLoop resp 99 2 1 p1 :=
          fetchLoop_ok_step resp 99 1 0 [] p1 h0
            (isEmpty_eq_false_of_length_ne_zero p1 (by omega)) (by omega)
            (by omega)
      _ = fetchLoop resp 98 3 2 (p1 ++ p2) :=
          fetchLoop_ok_step resp 98 2 1 p1 p2 h1
            (isEmpty_eq_false_of_length_ne_zero p2 (by omega)) (by omega)
            (by omega)
      _ = FetchOutcome.done ((p1 ++ p2) ++ p3) 3 false false Option.none :=
          fetchLoop_last_step resp 97 3 2 (p1 ++ p2) p3 h2
            (isEmpty_eq_false_of_length_ne_zero p3 (by omega)) (by omega)
      _ = FetchOutcome.done (p1 ++ (p2 ++ p3)) 3 false false Option.none := by
          rw [List.append_assoc]
  · simp [List.length_append, l1, l2, l3]

/-- Witness for C4 at a concrete three-page source. -/
theorem claim_C4_witness :
    fetch_sales_orders respC4 =
      FetchOutcome.done
        (List.replicate 250 PyVal.none ++
          (List.replicate 250 PyVal.none ++ List.replicate 40 PyVal.none))
        3 false false Option.none ∧
    (List.replicate 250 PyVal.none ++
      (List.replicate 250 PyVal.none ++ List.replicate 40 PyVal.none)).length =
      540 :=
  claim_C4 respC4 _ _ _ rfl rfl rfl (by rw [List.length_replicate])
    (by rw [List.length_replicate]) (by rw [List.length_replicate])

/-- C5: when every retry of some page fails with a transient error
(timeout, connection failure, or a status other than 200/401/403/429),
the fetcher surfaces the last attempt's error, marks the page failed,
aborts pagination and returns exactly the records accumulated from the
prior successful pages — in particular, after one full page of 250
records, a non-empty partial result. -/
theorem claim_C5 (resp : Nat → HttpResp) (p1 : List PyVal)
    (h0 : resp 0 = HttpResp.ok (PyVal.list p1)) (l1 : p1.length = 250)
    (e1 : transient (resp 1) = true) (e2 : transient (resp 2) = true)
    (e3 : transient (resp 3) = true) :
    (∀ fuel page idx acc, transient (resp idx) = true →
        transient (resp (idx + 1)) = true →
        transient (resp (idx + 2)) = true →
        fetchLoop resp (fuel + 1) page idx acc =
          FetchOutcome.done acc (idx + 3) false true (some (resp (idx + 2)))) ∧
    fetch_sales_orders resp =
      FetchOutcome.done p1 4 false true (some (resp 3)) ∧
    p1 ≠ [] := by
  refine ⟨fun fuel page idx acc t1 t2 t3 =>
    fetchLoop_failed resp fuel page idx acc t1 t2 t3, ?_, ?_⟩
  · calc fetch_sales_orders resp
        = fetchLoop resp 99 2 1 p1 :=
          fetchLoop_ok_step resp 99 1 0 [] p1 h0
            (isEmpty_eq_false_of_length_ne_zero p1 (by omega)) (by omega)
            (by omega)
      _ = FetchOutcome.done p1 4 false true (some (resp 3)) :=
          fetchLoop_failed resp 98 2 1 p1 e1 e2 e3
  · intro hnil
    rw [hnil] at l1
    simp at l1

/-- Witness for C5 at a concrete source whose second page times out on
all three attempts. -/
theorem claim_C5_witness :
    fetch_sales_orders respC5 =
      FetchOutcome.done (List.replicate 250 PyVal.none) 4 false true
        (some HttpResp.timeout) ∧
    List.replicate 250 PyVal.none ≠ [] := by
  have h := claim_C5 respC5 (List.replicate 250 PyVal.none) rfl
    (by rw [List.length_replicate]) rfl rfl rfl
  exact ⟨h.2.1, h.2.2⟩

/-- C9: an attempt answered 401 or 403 is not retried — `request_json`
halts at once with an authentication abort — and the pagination loop
propagates the abort, returning no records at all, whatever had been
accumulated. -/
theorem claim_C9 (resp : Nat → HttpResp) (idx c : Nat)
    (hc : c = 401 ∨ c = 403) (h : resp idx = HttpResp.status c) :
    (∀ fuel lastErr, requestLoop resp idx (fuel + 1) lastErr =
        (ReqOutcome.authAbort c, idx + 1)) ∧
    request_json resp idx = (ReqOutcome.authAbort c, idx + 1) ∧
    ∀ fuel page acc, fetchLoop resp (fuel + 1) page idx acc =
      FetchOutcome.aborted c := by
  have hstep : ∀ fuel lastErr, requestLoop resp idx (fuel + 1) lastErr =
      (ReqOutcome.authAbort c, idx + 1) := by
    intro fuel lastErr
    rcases hc with rfl | rfl <;> simp [requestLoop, h]
  have hj : request_json resp idx = (ReqOutcome.authAbort c, idx + 1) :=
    hstep 2 Option.none
  refine ⟨hstep, hj, fun fuel page acc => ?_⟩
  simp [fetchLoop, hj]

/-- Witness for C9 at a source answering 401 immediately. -/
theorem claim_C9_witness :
    request_json respC9 0 = (ReqOutcome.authAbort 401, 1) ∧
    fetch_sales_orders respC9 = FetchOutcome.aborted 401 := by
  have h := claim_C9 respC9 0 401 (Or.inl rfl) rfl
  exact ⟨h.2.1, h.2.2 99 1 []⟩

theorem isDigit_digitChar (d : Nat) : (digitChar d).isDigit = true := by
  unfold digitChar
  split <;> decide

theorem digitVal_digitChar (d : Nat) (h : d < 10) :
    digitVal (digitChar d) = d := by
  interval_cases d <;> decide

theorem ne_of_digit_of_not (c s : Char) (hc : c.isDigit = true)
    (hs : s.isDigit = false) : c ≠ s := by
  intro h
  subst h
  rw [hc] at hs
  cases hs

theorem mem_pad2 (c : Char) (n : Nat) (h : c ∈ pad2 n) : c.isDigit = true := by
  simp only [pad2, List.mem_cons, List.not_mem_nil, or_false] at h
  rcases h with rfl | rfl <;> exact isDigit_digitChar _

theorem mem_pad4 (c : Char) (n : Nat) (h : c ∈ pad4 n) : c.isDigit = true := by
  simp only [pad4, List.mem_cons, List.not_mem_nil, or_false] at h
  rcases h with rfl | rfl | rfl | rfl <;> exact isDigit_digitChar _

theorem mem_pad6 (c : Char) (n : Nat) (h : c ∈ pad6 n) : c.isDigit = true := by
  simp only [pad6, List.mem_cons, List.not_mem_nil, or_false] at h
  rcases h with rfl | rfl | rfl | rfl | rfl | rfl <;> exact isDigit_digitChar _

theorem stripFuel_id (p : Char) (pr : List Char) :
    ∀ (s : List Char) (fuel : Nat), (∀ x ∈ s, x ≠ p) →
      stripFuel (p :: pr) fuel s = s := by
  intro s
  induction s with
  | nil => intro fuel _; cases fuel <;> rfl
  | cons c cs ih =>
      intro fuel hp
      cases fuel with
      | zero => rfl
      | succ f =>
          have hpc : ¬p = c := fun h => hp c (List.mem_cons_self c cs) h.symm
          rw [stripFuel]
          rw [show leadsWith (p :: pr) (c :: cs) = false from by
            rw [leadsWith, if_neg hpc]]
          simp only [Bool.and_false, Bool.false_eq_true, if_false,
            List.cons.injEq, true_and]
          exact ih f (fun x hx => hp x (List.mem_cons_of_mem c hx))

theorem stripSub_id (p : Char) (pr : List Char) (s : List Char)
    (hp : ∀ x ∈ s, x ≠ p) : stripSub (p :: pr) s = s :=
  stripFuel_id p pr s s.length hp

theorem mem_isoChars (c : Char) (d : PyDateTime) (h : c ∈ isoChars d) :
    c.isDigit = true ∨ c = '-' ∨ c = ':' ∨ c = 'T' ∨ c = '.' := by
  by_cases h0 : d.usec = 0 <;>
    simp only [isoChars, h0, if_pos, if_neg, if_true, if_false,
      List.mem_append, List.mem_cons, List.not_mem_nil, or_false] at h
  · rcases h with h | h | h | h | h | h | h | h | h | h | h
    · exact Or.inl (mem_pad4 c _ h)
    · exact Or.inr (Or.inl h)
    · exact Or.inl (mem_pad2 c _ h)
    · exact Or.inr (Or.inl h)
    · exact Or.inl (mem_pad2 c _ h)
    · exact Or.inr (Or.inr (Or.inr (Or.inl h)))
    · exact Or.inl (mem_pad2 c _ h)
    · exact Or.inr (Or.inr (Or.inl h))
    · exact Or.inl (mem_pad2 c _ h)
    · exact Or.inr (Or.inr (Or.inl h))
    · exact Or.inl (mem_pad2 c _ h)
  · rcases h with h | h | h | h | h | h | h | h | h | h | h | h | h
    · exact Or.inl (mem_pad4 c _ h)
    · exact Or.inr (Or.inl h)
    · exact Or.inl (mem_pad2 c _ h)
    · exact Or.inr (Or.inl h)
    · exact Or.inl (mem_pad2 c _ h)
    · exact Or.inr (Or.inr (Or.inr (Or.inl h)))
    · exact Or.inl (mem_pad2 c _ h)
    · exact Or.inr (Or.inr (Or.inl h))
    · exact Or.inl (mem_pad2 c _ h)
    · exact Or.inr (Or.inr (Or.inl h))
    · exact Or.inl (mem_pad2 c _ h)
    · exact Or.inr (Or.inr (Or.inr (Or.inr h)))
    · exact Or.inl (mem_pad6 c _ h)

theorem mf_nil_nil (fuel : Nat) (cap : Captures) :
    matchFuel fuel [] [] cap = some cap := by
  cases fuel <;> rfl

theorem mf_nil_cons_none (fuel : Nat) (x : Char) (xs : List Char)
    (cap : Captures) : matchFuel fuel [] (x :: xs) cap = Option.none := by
  cases fuel <;> rfl

theorem mf_lit (ch : Char) (fuel : Nat) (ps : List Piece) (ts : List Char)
    (cap r : Captures) (h : matchFuel fuel ps ts cap = some r) :
    matchFuel (fuel + 1) (Piece.lit ch :: ps) (ch :: ts) cap = some r := by
  simp only [matchFuel, pieceCands, eq_self_iff_true, if_true,
    List.findSome?_cons, setCap, h]

theorem mf_Y (y : Nat) (hy : y ≤ 9999) (fuel : Nat) (ps : List Piece)
    (ts : List Char) (cap r : Captures)
    (h : matchFuel fuel ps ts (setCap Piece.Y y cap) = some r) :
    matchFuel (fuel + 1) (Piece.Y :: ps) (pad4 y ++ ts) cap = some r := by
  have e1 : digitVal (digitChar (y / 1000)) = y / 1000 :=
    digitVal_digitChar _ (by omega)
  have e2 : digitVal (digitChar (y / 100 % 10)) = y / 100 % 10 :=
    digitVal_digitChar _ (by omega)
  have e3 : digitVal (digitChar (y / 10 % 10)) = y / 10 % 10 :=
    digitVal_digitChar _ (by omega)
  have e4 : digitVal (digitChar (y % 10)) = y % 10 :=
    digitVal_digitChar _ (by omega)
  simp only [pad4, List.cons_append, List.nil_append, matchFuel, pieceCands,
    isDigit_digitChar, Bool.and_self, if_true, e1, e2, e3, e4]
  have hv : y / 1000 * 1000 + y / 100 % 10 * 100 + y / 10 % 10 * 10 + y % 10 = y := by
    omega
  rw [hv, List.findSome?_cons]
  simp only [h]

theorem mf_Mo (m : Nat) (h1 : 1 ≤ m) (h2 : m ≤ 12) (fuel : Nat)
    (ps : List Piece) (ts : List Char) (cap r : Captures)
    (h : matchFuel fuel ps ts (setCap Piece.Mo m cap) = some r) :
    matchFuel (fuel + 1) (Piece.Mo :: ps) (pad2 m ++ ts) cap = some r := by
  have ha : digitVal (digitChar (m / 10)) = m / 10 :=
    digitVal_digitChar _ (by omega)
  have hb : digitVal (digitChar (m % 10)) = m % 10 :=
    digitVal_digitChar _ (by omega)
  simp only [pad2, List.cons_append, List.nil_append, matchFuel, pieceCands,
    isDigit_digitChar, Bool.true_and, ha, hb]
  have hv : 10 * (m / 10) + m % 10 = m := by omega
  rw [hv, if_pos (by simp [h1, h2]), List.singleton_append, List.findSome?_cons]
  simp only [h]

theorem mf_D (v : Nat) (h1 : 1 ≤ v) (h2 : v ≤ 31) (fuel : Nat)
    (ps : List Piece) (ts : List Char) (cap r : Captures)
    (h : matchFuel fuel ps ts (setCap Piece.D v cap) = some r) :
    matchFuel (fuel + 1) (Piece.D :: ps) (pad2 v ++ ts) cap = some r := by
  have ha : digitVal (digitChar (v / 10)) = v / 10 :=
    digitVal_digitChar _ (by omega)
  have hb : digitVal (digitChar (v % 10)) = v % 10 :=
    digitVal_digitChar _ (by omega)
  simp only [pad2, List.cons_append, List.nil_append, matchFuel, pieceCands,
    isDigit_digitChar, Bool.true_and, ha, hb]
  have hv : 10 * (v / 10) + v % 10 = v := by omega
  rw [hv, if_pos (by simp [h1, h2]), List.singleton_append, List.findSome?_cons]
  simp only [h]

theorem mf_H (v : Nat) (h2 : v ≤ 23) (fuel : Nat) (ps : List Piece)
    (ts : List Char) (cap r : Captures)
    (h : matchFuel fuel ps ts (setCap Piece.H v cap) = some r) :
    matchFuel (fuel + 1) (Piece.H :: ps) (pad2 v ++ ts) cap = some r := by
  have ha : digitVal (digitChar (v / 10)) = v / 10 :=
    digitVal_digitChar _ (by omega)
  have hb : digitVal (digitChar (v % 10)) = v % 10 :=
    digitVal_digitChar _ (by omega)
  simp only [pad2, List.cons_append, List.nil_append, matchFuel, pieceCands,
    isDigit_digitChar, Bool.true_and, ha, hb]
  have hv : 10 * (v / 10) + v % 10 = v := by omega
  rw [hv, if_pos (by simp [h2]), List.singleton_append, List.findSome?_cons]
  simp only [h]

theorem mf_Mi (v : Nat) (h2 : v ≤ 59) (fuel : Nat) (ps : List Piece)
    (ts : List Char) (cap r : Captures)
    (h : matchFuel fuel ps ts (setCap Piece.Mi v cap) = some r) :
    matchFuel (fuel + 1) (Piece.Mi :: ps) (pad2 v ++ ts) cap = some r := by
  have ha : digitVal (digitChar (v / 10)) = v / 10 :=
    digitVal_digitChar _ (by omega)
  have hb : digitVal (digitChar (v % 10)) = v % 10 :=
    digitVal_digitChar _ (by omega)
  simp only [pad2, List.cons_append, List.nil_append, matchFuel, pieceCands,
    isDigit_digitChar, Bool.true_and, ha, hb]
  have hv : 10 * (v / 10) + v % 10 = v := by omega
  rw [hv, if_pos (by simp [h2]), List.singleton_append, List.findSome?_cons]
  simp only [h]

theorem mf_S (v : Nat) (h2 : v ≤ 61) (fuel : Nat) (ps : List Piece)
    (ts : List Char) (cap r : Captures)
    (h : matchFuel fuel ps ts (setCap Piece.S v cap) = some r) :
    matchFuel (fuel + 1) (Piece.S :: ps) (pad2 v ++ ts) cap = some r := by
  have ha : digitVal (digitChar (v / 10)) = v / 10 :=
    digitVal_digitChar _ (by omega)
  have hb : digitVal (digitChar (v % 10)) = v % 10 :=
    digitVal_digitChar _ (by omega)
  simp only [pad2, List.cons_append, List.nil_append, matchFuel, pieceCands,
    isDigit_digitChar, Bool.true_and, ha, hb]
  have hv : 10 * (v / 10) + v % 10 = v := by omega
  rw [hv, if_pos (by simp [h2]), List.singleton_append, List.findSome?_cons]
  simp only [h]

theorem natOfDigits_pad6 (u : Nat) (hu : u ≤ 999999) :
    natOfDigits (pad6 u) = u := by
  have b1 : digitVal (digitChar (u / 100000)) = u / 100000 :=
    digitVal_digitChar _ (by omega)
  have b2 : digitVal (digitChar (u / 10000 % 10)) = u / 10000 % 10 :=
    digitVal_digitChar _ (by omega)
  have b3 : digitVal (digitChar (u / 1000 % 10)) = u / 1000 % 10 :=
    digitVal_digitChar _ (by omega)
  have b4 : digitVal (digitChar (u / 100 % 10)) = u / 100 % 10 :=
    digitVal_digitChar _ (by omega)
  have b5 : digitVal (digitChar (u / 10 % 10)) = u / 10 % 10 :=
    digitVal_digitChar _ (by omega)
  have b6 : digitVal (digitChar (u % 10)) = u % 10 :=
    digitVal_digitChar _ (by omega)
  simp only [natOfDigits, pad6, List.foldl_cons, List.foldl_nil, b1, b2, b3,
    b4, b5, b6]
  omega

theorem mf_F_end (u : Nat) (hu : u ≤ 999999) (fuel : Nat) (cap r : Captures)
    (hr : setCap Piece.F u cap = r) :
    matchFuel (fuel + 1) [Piece.F] (pad6 u) cap = some r := by
  have htw : (pad6 u).takeWhile Char.isDigit = pad6 u := by
    simp [pad6, List.takeWhile_cons, isDigit_digitChar]
  simp only [matchFuel, pieceCands, htw]
  have htk : (pad6 u).take 6 = pad6 u := rfl
  have hlen : (pad6 u).length = 6 := rfl
  rw [htk, hlen]
  have hrange : List.range 6 = [0, 1, 2, 3, 4, 5] := rfl
  rw [hrange]
  simp only [List.map_cons, List.findSome?_cons]
  norm_num [htk, natOfDigits_pad6 u hu]
  have hdrop : List.drop 6 (pad6 u) = [] := rfl
  rw [hdrop, hr, mf_nil_nil fuel r]

theorem mf_lit_none (ch : Char) (fuel : Nat) (ps : List Piece) (ts : List Char)
    (cap : Captures) (h : matchFuel fuel ps ts cap = Option.none) :
    matchFuel (fuel + 1) (Piece.lit ch :: ps) (ch :: ts) cap = Option.none := by
  simp only [matchFuel, pieceCands, eq_self_iff_true, if_true,
    List.findSome?_cons, setCap, h, List.findSome?_nil]

theorem mf_Y_none (y : Nat) (fuel : Nat) (ps : List Piece) (ts : List Char)
    (cap : Captures)
    (h : ∀ v, matchFuel fuel ps ts (setCap Piece.Y v cap) = Option.none) :
    matchFuel (fuel + 1) (Piece.Y :: ps) (pad4 y ++ ts) cap = Option.none := by
  simp only [pad4, List.cons_append, List.nil_append, matchFuel, pieceCands,
    isDigit_digitChar, Bool.and_self, if_true, List.findSome?_cons, h,
    List.findSome?_nil]

theorem mf_Mo_sep_none (m : Nat) (sep : Char) (hsep : sep.isDigit = false)
    (fuel : Nat) (ps : List Piece) (ts : List Char) (cap : Captures)
    (h : ∀ v, matchFuel fuel (Piece.lit sep :: ps) (sep :: ts)
        (setCap Piece.Mo v cap) = Option.none) :
    matchFuel (fuel + 1) (Piece.Mo :: Piece.lit sep :: ps)
      (pad2 m ++ sep :: ts) cap = Option.none := by
  simp only [pad2, List.cons_append, List.nil_append, matchFuel]
  rw [List.findSome?_eq_none_iff]
  intro vr hvr
  simp only [pieceCands, List.mem_append] at hvr
  rcases hvr with hvr | hvr
  · split at hvr
    · simp only [List.mem_cons, List.not_mem_nil, or_false] at hvr
      subst hvr
      exact h _
    · exact absurd hvr (List.not_mem_nil _)
  · split at hvr
    · simp only [List.mem_cons, List.not_mem_nil, or_false] at hvr
      subst hvr
      cases fuel with
      | zero => rfl
      | succ f =>
          simp only [matchFuel, pieceCands]
          rw [if_neg (ne_of_digit_of_not (digitChar (m % 10)) sep
            (isDigit_digitChar _) hsep)]
          simp [List.findSome?_nil]
    · exact absurd hvr (List.not_mem_nil _)

theorem mf_D_sep_none (m : Nat) (sep : Char) (hsep : sep.isDigit = false)
    (fuel : Nat) (ps : List Piece) (ts : List Char) (cap : Captures)
    (h : ∀ v, matchFuel fuel (Piece.lit sep :: ps) (sep :: ts)
        (setCap Piece.D v cap) = Option.none) :
    matchFuel (fuel + 1) (Piece.D :: Piece.lit sep :: ps)
      (pad2 m ++ sep :: ts) cap = Option.none := by
  simp only [pad2, List.cons_append, List.nil_append, matchFuel]
  rw [List.findSome?_eq_none_iff]
  intro vr hvr
  simp only [pieceCands, List.mem_append] at hvr
  rcases hvr with hvr | hvr
  · split at hvr
    · simp only [List.mem_cons, List.not_mem_nil, or_false] at hvr
      subst hvr
      exact h _
    · exact absurd hvr (List.not_mem_nil _)
  · split at hvr
    · simp only [List.mem_cons, List.not_mem_nil, or_false] at hvr
      subst hvr
      cases fuel with
      | zero => rfl
      | succ f =>
          simp only [matchFuel, pieceCands]
          rw [if_neg (ne_of_digit_of_not (digitChar (m % 10)) sep
            (isDigit_digitChar _) hsep)]
          simp [List.findSome?_nil]
    · exact absurd hvr (List.not_mem_nil _)

theorem mf_H_sep_none (m : Nat) (sep : Char) (hsep : sep.isDigit = false)
    (fuel : Nat) (ps : List Piece) (ts : List Char) (cap : Captures)
    (h : ∀ v, matchFuel fuel (Piece.lit sep :: ps) (sep :: ts)
        (setCap Piece.H v cap) = Option.none) :
    matchFuel (fuel + 1) (Piece.H :: Piece.lit sep :: ps)
      (pad2 m ++ sep :: ts) cap = Option.none := by
  simp only [pad2, List.cons_append, List.nil_append, matchFuel]
  rw [List.findSome?_eq_none_iff]
  intro vr hvr
  simp only [pieceCands, List.mem_append] at hvr
  rcases hvr with hvr | hvr
  · split at hvr
    · simp only [List.mem_cons, List.not_mem_nil, or_false] at hvr
      subst hvr
      exact h _
    · exact absurd hvr (List.not_mem_nil _)
  · split at hvr
    · simp only [List.mem_cons, List.not_mem_nil, or_false] at hvr
      subst hvr
      cases fuel with
      | zero => rfl
      | succ f =>
          simp only [matchFuel, pieceCands]
          rw [if_neg (ne_of_digit_of_not (digitChar (m % 10)) sep
            (isDigit_digitChar _) hsep)]
          simp [List.findSome?_nil]
    · exact absurd hvr (List.not_mem_nil _)

theorem mf_Mi_sep_none (m : Nat) (sep : Char) (hsep : sep.isDigit = false)
    (fuel : Nat) (ps : List Piece) (ts : List Char) (cap : Captures)
    (h : ∀ v, matchFuel fuel (Piece.lit sep :: ps) (sep :: ts)
        (setCap Piece.Mi v cap) = Option.none) :
    matchFuel (fuel + 1) (Piece.Mi :: Piece.lit sep :: ps)
      (pad2 m ++ sep :: ts) cap = Option.none := by
  simp only [pad2, List.cons_append, List.nil_append, matchFuel]
  rw [List.findSome?_eq_none_iff]
  intro vr hvr
  simp only [pieceCands, List.mem_append] at hvr
  rcases hvr with hvr | hvr
  · split at hvr
    · simp only [List.mem_cons, List.not_mem_nil, or_false] at hvr
      subst hvr
      exact h _
    · exact absurd hvr (List.not_mem_nil _)
  · split at hvr
    · simp only [List.mem_cons, List.not_mem_nil, or_false] at hvr
      subst hvr
      cases fuel with
      | zero => rfl
      | succ f =>
          simp only [matchFuel, pieceCands]
          rw [if_neg (ne_of_digit_of_not (digitChar (m % 10)) sep
            (isDigit_digitChar _) hsep)]
          simp [List.findSome?_nil]
    · exact absurd hvr (List.not_mem_nil _)

theorem mf_S_dot_none (v : Nat) (rest : List Char) (fuel : Nat)
    (cap : Captures) :
    matchFuel (fuel + 1) [Piece.S] (pad2 v ++ '.' :: rest) cap =
      Option.none := by
  simp only [pad2, List.cons_append, List.nil_append, matchFuel]
  rw [List.findSome?_eq_none_iff]
  intro vr hvr
  simp only [pieceCands, List.mem_append] at hvr
  rcases hvr with hvr | hvr
  · split at hvr
    · simp only [List.mem_cons, List.not_mem_nil, or_false] at hvr
      subst hvr
      exact mf_nil_cons_none fuel _ _ _
    · exact absurd hvr (List.not_mem_nil _)
  · split at hvr
    · simp only [List.mem_cons, List.not_mem_nil, or_false] at hvr
      subst hvr
      exact mf_nil_cons_none fuel _ _ _
    · exact absurd hvr (List.not_mem_nil _)

theorem cleaned_isoformat (d : PyDateTime) :
    stripSub zPat (stripSub plusPat (isoformat d).toList) = isoChars d := by
  have hlist : (isoformat d).toList = isoChars d := rfl
  have hplus : stripSub plusPat (isoChars d) = isoChars d := by
    apply stripSub_id
    intro x hx
    rcases mem_isoChars x d hx with hd | h | h | h | h
    · exact ne_of_digit_of_not x '+' hd (by decide)
    all_goals (subst h; decide)
  have hz : stripSub zPat (isoChars d) = isoChars d := by
    apply stripSub_id
    intro x hx
    rcases mem_isoChars x d hx with hd | h | h | h | h
    · exact ne_of_digit_of_not x 'Z' hd (by decide)
    all_goals (subst h; decide)
  rw [hlist, hplus, hz]

theorem daysInMonth_le_31 (y m : Nat) : daysInMonth y m ≤ 31 := by
  unfold daysInMonth
  split
  · split <;> omega
  · split <;> omega

theorem validDT_bounds (d : PyDateTime) (h : validDT d = true) :
    1 ≤ d.year ∧ d.year ≤ 9999 ∧ 1 ≤ d.month ∧ d.month ≤ 12 ∧ 1 ≤ d.day ∧
    d.day ≤ 31 ∧ d.hour ≤ 23 ∧ d.minute ≤ 59 ∧ d.second ≤ 59 ∧
    d.usec ≤ 999999 := by
  simp only [validDT, Bool.and_eq_true, decide_eq_true_eq] at h
  have hdim : daysInMonth d.year d.month ≤ 31 := daysInMonth_le_31 _ _
  omega

theorem strptime_iso_some (d : PyDateTime) (h : validDT d = true)
    (h0 : d.usec = 0) : strptimeFmt isoPieces (isoChars d) = some d := by
  obtain ⟨hy1, hy2, hm1, hm2, hd1, hd2, hh, hmi, hs, hu⟩ := validDT_bounds d h
  have hcap : matchFuel 11 isoPieces (isoChars d) {} =
      some ⟨d.year, d.month, d.day, d.hour, d.minute, d.second, 0⟩ := by
    simp only [isoChars, h0, eq_self_iff_true, if_true, isoPieces]
    apply mf_Y d.year hy2
    apply mf_lit
    apply mf_Mo d.month hm1 hm2
    apply mf_lit
    apply mf_D d.day hd1 hd2
    apply mf_lit
    apply mf_H d.hour hh
    apply mf_lit
    apply mf_Mi d.minute hmi
    apply mf_lit
    apply mf_S d.second (by omega)
    exact mf_nil_nil 0 _
  have hlen : isoPieces.length = 11 := rfl
  simp only [strptimeFmt, matchPieces, hlen, hcap]
  have hvc : validCaptures
      ⟨d.year, d.month, d.day, d.hour, d.minute, d.second, 0⟩ = true := by
    show validDT ⟨d.year, d.month, d.day, d.hour, d.minute, d.second, 0⟩ = true
    rw [← h0]
    exact h
  rw [if_pos hvc, ← h0]

theorem strptime_isoFrac_some (d : PyDateTime) (h : validDT d = true)
    (h0 : d.usec ≠ 0) : strptimeFmt isoFracPieces (isoChars d) = some d := by
  obtain ⟨hy1, hy2, hm1, hm2, hd1, hd2, hh, hmi, hs, hu⟩ := validDT_bounds d h
  have hcap : matchFuel 13 isoFracPieces (isoChars d) {} =
      some ⟨d.year, d.month, d.day, d.hour, d.minute, d.second, d.usec⟩ := by
    simp only [isoChars, isoFracPieces, isoPieces, List.cons_append,
      List.nil_append, if_neg h0]
    apply mf_Y d.year hy2
    apply mf_lit
    apply mf_Mo d.month hm1 hm2
    apply mf_lit
    apply mf_D d.day hd1 hd2
    apply mf_lit
    apply mf_H d.hour hh
    apply mf_lit
    apply mf_Mi d.minute hmi
    apply mf_lit
    apply mf_S d.second (by omega)
    apply mf_lit
    apply mf_F_end d.usec hu
    rfl
  have hlen : isoFracPieces.length = 13 := rfl
  simp only [strptimeFmt, matchPieces, hlen, hcap]
  have hvc : validCaptures
      ⟨d.year, d.month, d.day, d.hour, d.minute, d.second, d.usec⟩ = true := by
    show validDT ⟨d.year, d.month, d.day, d.hour, d.minute, d.second,
      d.usec⟩ = true
    exact h
  rw [if_pos hvc]

theorem strptime_iso_none_of_frac (d : PyDateTime) (h0 : d.usec ≠ 0) :
    strptimeFmt isoPieces (isoChars d) = Option.none := by
  have hm : matchFuel 11 isoPieces (isoChars d) {} = Option.none := by
    simp only [isoChars, isoPieces, if_neg h0]
    apply mf_Y_none
    intro v1
    apply mf_lit_none
    apply mf_Mo_sep_none _ '-' (by decide)
    intro v2
    apply mf_lit_none
    apply mf_D_sep_none _ 'T' (by decide)
    intro v3
    apply mf_lit_none
    apply mf_H_sep_none _ ':' (by decide)
    intro v4
    apply mf_lit_none
    apply mf_Mi_sep_none _ ':' (by decide)
    intro v5
    apply mf_lit_none
    apply mf_S_dot_none
  have hlen : isoPieces.length = 11 := rfl
  simp only [strptimeFmt, matchPieces, hlen, hm]

theorem strptimeFmt_valid (ps : List Piece) (cs : List Char) (dt : PyDateTime)
    (h : strptimeFmt ps cs = some dt) : validDT dt = true := by
  cases hm : matchPieces ps cs {} with
  | none =>
      simp only [strptimeFmt, hm] at h
      exact Option.noConfusion h
  | some c =>
      simp only [strptimeFmt, hm] at h
      split at h
      · next hvc =>
          injection h with h'
          subst h'
          exact hvc
      · cases h

/-- C6: date parsing is idempotent as a round trip — for any string some
supported format accepts, re-parsing the ISO-8601 rendering of the parsed
timestamp (its canonical string representation) yields the same
timestamp. -/
theorem claim_C6 (s : String) (dt : PyDateTime)
    (h : parse_date (PyVal.str s) = some dt) :
    parse_date (PyVal.str (isoformat dt)) = some dt := by
  have hv : validDT dt = true := by
    simp only [parse_date] at h
    obtain ⟨fmt, hmem, hf⟩ := List.exists_of_findSome?_eq_some h
    exact strptimeFmt_valid fmt _ dt hf
  simp only [parse_date, cleaned_isoformat dt, date_formats]
  by_cases h0 : dt.usec = 0
  · simp only [List.findSome?_cons, strptime_iso_some dt hv h0]
  · simp only [List.findSome?_cons, strptime_iso_none_of_frac dt h0,
      strptime_isoFrac_some dt hv h0]

/-- Witness for C6 at the concrete string `"2026-10-01"`. -/
theorem claim_C6_witness :
    parse_date (PyVal.str "2026-10-01") = some dtW ∧
    parse_date (PyVal.str (isoformat dtW)) = some dtW :=
  ⟨rfl, claim_C6 "2026-10-01" dtW rfl⟩

end Workshop
